import Mathlib

/-!
Verification development for the music-collection incremental sync engine
(`scripts/sync_all.py`, `scripts/db_helper.py`).

The Python source is shallowly embedded: pure string processing becomes
functions on `List Char`, timestamps become `Int` seconds, database tables
become Lean lists, the per-source ledger (`keep_track`) becomes a function
from source names to entries, and the outcomes of external effects
(HTTP calls, the Roon session, the filesystem) are supplied by explicit
oracle structures so that the control flow around them - skip checks,
pagination, retry, exception handling - is embedded exactly.

Modelling conventions, stated once:
* Python `str.lower` is modelled on the ASCII range (`pyLower`); the
  characters where full Unicode lowercasing differs are all stripped by the
  normalisation filter in the lines under study.
* Python's regex class `\s` and `str.split()` whitespace are modelled by the
  six ASCII whitespace characters (`pyIsSpace`).
* Python `datetime` values are seconds since an epoch (`Int`);
  `timedelta.days` is floor division by 86400, which is `Int` `/`
  (Euclidean division, identical to floor for the positive divisor used).
-/

/- ===================================================================
   Normalisation engine: `MusicDB.normalize_string` (db_helper.py 140-154)

       if not s or s is None: return ''
       s = str(s).lower()
       s = re.sub(r'[^a-z0-9\s]', '', s)
       s = ' '.join(s.split())
       if s.startswith('the '): s = s[4:]
       return s
   =================================================================== -/

/-- The six ASCII whitespace characters: Python's `\s` and `str.split()`
whitespace, restricted to ASCII (see module conventions). -/
def pyIsSpace (c : Char) : Bool :=
  c == ' ' || c == '\t' || c == '\n' || c == '\r' || c == '\u000b' || c == '\u000c'

/-- ASCII model of Python `str.lower`: map code points 65-90 to 97-122. -/
def pyLower (c : Char) : Char :=
  if 65 ≤ c.toNat && c.toNat ≤ 90 then Char.ofNat (c.toNat + 32) else c

/-- The keep-set of `re.sub(r'[^a-z0-9\s]', '', s)`: lowercase ASCII
letters, digits, and whitespace survive; everything else is deleted. -/
def keepChar (c : Char) : Bool :=
  (97 ≤ c.toNat && c.toNat ≤ 122) || (48 ≤ c.toNat && c.toNat ≤ 57) || pyIsSpace c

/-- Python `str.split()` (no separator argument): split on runs of
whitespace, discarding empty pieces.  Accumulator `cur` holds the current
word reversed; structural recursion so that terms reduce in the kernel. -/
def pySplitAux (cur : List Char) : List Char → List (List Char)
  | [] => if cur.isEmpty then [] else [cur.reverse]
  | c :: cs =>
    if pyIsSpace c then
      if cur.isEmpty then pySplitAux [] cs else cur.reverse :: pySplitAux [] cs
    else
      pySplitAux (c :: cur) cs

/-- `s.split()` of Python. -/
def pySplit (l : List Char) : List (List Char) :=
  pySplitAux [] l

/-- Reasoning twin of `pySplit` phrased with `takeWhile`/`dropWhile`
(proved equal to it below); the inductions are done on this form. -/
def pySplitTW : List Char → List (List Char)
  | [] => []
  | c :: cs =>
    if pyIsSpace c then pySplitTW cs
    else (c :: cs.takeWhile (fun d => !pyIsSpace d)) ::
           pySplitTW (cs.dropWhile (fun d => !pyIsSpace d))
termination_by l => l.length
decreasing_by
  · simp only [List.length_cons]; omega
  · have := (List.dropWhile_sublist (l := cs) (fun d => !pyIsSpace d)).length_le
    simp only [List.length_cons]; omega

/-- `' '.join(ws)` of Python. -/
def joinWords : List (List Char) → List Char
  | [] => []
  | [w] => w
  | w :: ws => w ++ ' ' :: joinWords ws

/-- `if s.startswith('the '): s = s[4:]` of the source. -/
def stripThe (l : List Char) : List Char :=
  if l.take 4 = ['t', 'h', 'e', ' '] then l.drop 4 else l

/-- The body of `MusicDB.normalize_string` on the character list of a
non-empty string: lowercase, delete characters outside the keep-set,
split-and-rejoin on whitespace, strip one leading "the ". -/
def normalizeList (l : List Char) : List Char :=
  stripThe (joinWords (pySplit ((l.map pyLower).filter keepChar)))

/-- `MusicDB.normalize_string` (db_helper.py 140-154); `none` models a
Python `None` argument and the `if not s or s is None` guard returns the
empty string for it and for the empty string. -/
def normalize_string (s : Option String) : String :=
  match s with
  | none => ""
  | some s => if s = "" then "" else String.mk (normalizeList s.data)

/- ===================================================================
   Reference definitions written from the specification's words
   (used only to compare against the embedded source code).
   =================================================================== -/

/-- Collapse each maximal run of whitespace to a single space
(lookahead form, structurally recursive). -/
def collapseRuns : List Char → List Char
  | [] => []
  | [c] => if pyIsSpace c then [' '] else [c]
  | c :: d :: cs =>
    if pyIsSpace c then
      if pyIsSpace d then collapseRuns (d :: cs) else ' ' :: collapseRuns (d :: cs)
    else
      c :: collapseRuns (d :: cs)

/-- Drop leading and trailing whitespace. -/
def trimEnds (l : List Char) : List Char :=
  ((l.dropWhile pyIsSpace).reverse.dropWhile pyIsSpace).reverse

/-- Characters the claim's reference normalisation keeps: exactly the class
`[a-z0-9 ]`, so tabs and newlines are NOT kept. -/
def specKeepOrig (c : Char) : Bool :=
  (97 ≤ c.toNat && c.toNat ≤ 122) || (48 ≤ c.toNat && c.toNat ≤ 57) || c == ' '

/-- The normalisation reference exactly as the claim states it: lowercase;
strip every character outside `[a-z0-9 ]` (including tabs and newlines);
collapse runs of whitespace to one space; strip one leading "the ";
empty or null input yields the empty string. -/
def specNormalizeOrig (s : Option String) : String :=
  match s with
  | none => ""
  | some s =>
    if s = "" then ""
    else String.mk (stripThe (collapseRuns ((s.data.map pyLower).filter specKeepOrig)))

/-- The amended normalisation reference: lowercase; strip every character
outside `[a-z0-9]` except whitespace (tabs and newlines are kept as
whitespace); collapse runs of whitespace to one space and drop leading and
trailing whitespace; strip one leading "the "; empty or null input yields
the empty string. -/
def specNormalizeAmended (s : Option String) : String :=
  match s with
  | none => ""
  | some s =>
    if s = "" then ""
    else String.mk (stripThe (trimEnds (collapseRuns ((s.data.map pyLower).filter keepChar))))

/- ===================================================================
   Ledger (`keep_track` table) and skip policy (sync_all.py 30-51,
   db_helper.py 93-115).
   =================================================================== -/

/-- Logical source names: the seven sync stages plus `discogs_tracks`,
which has its own `keep_track` row updated by the collection sync. -/
inductive Src
  | roon_albums | roon_tags | roon_tracks | roon_play_history
  | discogs_collection | discogs_tracks | discogs_wantlist | track_index
deriving DecidableEq

/-- One `keep_track` row:
`(source_name, last_sync, file_path, records_count, sync_status, updated_at)`. -/
structure Entry where
  last_sync : Option Int
  file_path : Option String
  records_count : Nat
  sync_status : String
  updated_at : Option Int
deriving DecidableEq

/-- The ledger: one `keep_track` row per source. -/
def Ledger := Src → Entry

/-- `MusicDB.update_sync_status` (db_helper.py 104-115): overwrite
`last_sync = NOW()`, `records_count`, `sync_status`, `updated_at = NOW()`
for the one named source; `file_path` and every other row are untouched. -/
def update_sync_status (led : Ledger) (s : Src) (now : Int)
    (records_count : Nat) (status : String) : Ledger :=
  fun t =>
    if t = s then
      { last_sync := some now, file_path := (led t).file_path,
        records_count := records_count, sync_status := status,
        updated_at := some now }
    else led t

/-- `SKIP_DAYS = 7` (sync_all.py 31). -/
def SKIP_DAYS : Int := 7

/-- `should_skip_sync` (sync_all.py 37-51): false on `force` or when no
prior `last_sync` exists; otherwise true iff
`(now - last_sync).days < SKIP_DAYS`.  `timedelta.days` is floor division
of the elapsed seconds by 86400. -/
def should_skip_sync (force : Bool) (last_sync : Option Int) (now : Int) : Bool :=
  if force then false
  else
    match last_sync with
    | none => false
    | some t =>
      let days_since : Int := (now - t) / 86400
      if days_since < SKIP_DAYS then true else false

/-- `str(e)[:50]`, the truncation used in every `'failed: ...'` status. -/
def truncate50 (e : String) : String :=
  String.mk (e.data.take 50)

/- ===================================================================
   Orchestrator skeleton: `sync_all` (sync_all.py 850-986) and the
   exception/skip/ledger structure of the seven per-source routines.
   The body of each routine between its skip check and its ledger update
   (network navigation, pagination, SQL inserts) is abstracted as an
   oracle outcome `Except String Nat`: either the record count it returns
   or the message of the exception it raises.
   =================================================================== -/

/-- CLI source selectors (`--source` choices of sync_all.py 996-999). -/
inductive Sel
  | roon_albums | roon_tags | roon_tracks | roon_play_history
  | discogs_collection | discogs_wantlist | tracks
deriving DecidableEq

/-- `sources is None or x in sources`. -/
def srcSel (srcs : Option (List Sel)) (x : Sel) : Bool :=
  match srcs with
  | none => true
  | some l => l.contains x

/-- Coarse observable effects of a routine: a remote fetch against an
external service, or a write to a database table. -/
inductive Ev
  | fetch (s : Src)
  | dbWrite (s : Src)
deriving DecidableEq

/-- Oracle for one run: the clock, and the outcome of each routine's
external body (API navigation/fetch/insert work for the API-style
routines; file reading plus bulk insert for the file routines). -/
structure World where
  now : Int
  apiBody : Src → Except String Nat
  fileExists : Src → Bool
  mtime : Src → Option Int
  fileBody : Src → Except String Nat
  dcTracks : Nat

/-- Run state threaded through the orchestrator: the ledger, the list of
routines that were invoked, and the effect trace. -/
structure RunSt where
  led : Ledger
  executed : List Src
  trace : List Ev

/-- `sync_roon_albums` (sync_all.py 87-197) at orchestrator granularity:
skip check against the ledger; otherwise the whole body runs inside
`try`, a raised exception is recorded as `failed: str(e)[:50]` with count
0, success records the count; nothing propagates. -/
def step_roon_albums (w : World) (force : Bool) (st : RunSt) : RunSt × Option String :=
  let st := { st with executed := st.executed ++ [Src.roon_albums] }
  if should_skip_sync force ((st.led Src.roon_albums).last_sync) w.now then
    (st, none)
  else
    match w.apiBody Src.roon_albums with
    | Except.ok n =>
      ({ st with
          led := update_sync_status st.led Src.roon_albums w.now n "success",
          trace := st.trace ++ [Ev.fetch Src.roon_albums, Ev.dbWrite Src.roon_albums] },
        none)
    | Except.error e =>
      ({ st with
          led := update_sync_status st.led Src.roon_albums w.now 0
                   ("failed: " ++ truncate50 e),
          trace := st.trace ++ [Ev.fetch Src.roon_albums] },
        none)

/-- `sync_roon_tags` (sync_all.py 200-372): NO skip check; the routine
connects to the remote service unconditionally (retry loop included in
the body), flips flags on the `roon_albums` table, and its `try` catches
everything, recording `failed: str(e)[:50]` on exception. -/
def step_roon_tags (w : World) (_force : Bool) (st : RunSt) : RunSt × Option String :=
  let st := { st with executed := st.executed ++ [Src.roon_tags],
                      trace := st.trace ++ [Ev.fetch Src.roon_tags] }
  match w.apiBody Src.roon_tags with
  | Except.ok n =>
    ({ st with
        led := update_sync_status st.led Src.roon_tags w.now n "success",
        trace := st.trace ++ [Ev.dbWrite Src.roon_albums] },
      none)
  | Except.error e =>
    ({ st with
        led := update_sync_status st.led Src.roon_tags w.now 0
                 ("failed: " ++ truncate50 e) },
      none)

/-- `sync_discogs_collection` (sync_all.py 379-561) at orchestrator
granularity: skip check; on success the routine updates BOTH the
`discogs_collection` and `discogs_tracks` ledger rows; on exception it
records `failed: str(e)[:50]` for `discogs_collection` only. -/
def step_discogs_collection (w : World) (force : Bool) (st : RunSt) : RunSt × Option String :=
  let st := { st with executed := st.executed ++ [Src.discogs_collection] }
  if should_skip_sync force ((st.led Src.discogs_collection).last_sync) w.now then
    (st, none)
  else
    match w.apiBody Src.discogs_collection with
    | Except.ok n =>
      ({ st with
          led := update_sync_status
                   (update_sync_status st.led Src.discogs_collection w.now n "success")
                   Src.discogs_tracks w.now w.dcTracks "success",
          trace := st.trace ++ [Ev.fetch Src.discogs_collection,
                                Ev.dbWrite Src.discogs_collection,
                                Ev.dbWrite Src.discogs_tracks] },
        none)
    | Except.error e =>
      ({ st with
          led := update_sync_status st.led Src.discogs_collection w.now 0
                   ("failed: " ++ truncate50 e),
          trace := st.trace ++ [Ev.fetch Src.discogs_collection] },
        none)

/-- `sync_discogs_wantlist` (sync_all.py 563-656): same shape as the
collection sync with a single ledger row. -/
def step_discogs_wantlist (w : World) (force : Bool) (st : RunSt) : RunSt × Option String :=
  let st := { st with executed := st.executed ++ [Src.discogs_wantlist] }
  if should_skip_sync force ((st.led Src.discogs_wantlist).last_sync) w.now then
    (st, none)
  else
    match w.apiBody Src.discogs_wantlist with
    | Except.ok n =>
      ({ st with
          led := update_sync_status st.led Src.discogs_wantlist w.now n "success",
          trace := st.trace ++ [Ev.fetch Src.discogs_wantlist,
                                Ev.dbWrite Src.discogs_wantlist] },
        none)
    | Except.error e =>
      ({ st with
          led := update_sync_status st.led Src.discogs_wantlist w.now 0
                   ("failed: " ++ truncate50 e),
          trace := st.trace ++ [Ev.fetch Src.discogs_wantlist] },
        none)

/-- Shared shape of the two file routines (sync_all.py 670-773): read the
ledger row; bail out if no path or no file; skip when
`not force and file_modified and last_sync and file_modified <= last_sync`;
otherwise run the import body, which has NO try/except, so an exception
in it propagates to the caller (`some e` in the second component). -/
def step_file (s : Src) (w : World) (force : Bool) (st : RunSt) : RunSt × Option String :=
  let st := { st with executed := st.executed ++ [s] }
  let entry := st.led s
  match entry.file_path with
  | none => (st, none)
  | some _ =>
    if w.fileExists s = false then (st, none)
    else
      let skip : Bool :=
        !force &&
          (match w.mtime s, entry.last_sync with
           | some m, some t => decide (m ≤ t)
           | _, _ => false)
      if skip then (st, none)
      else
        match w.fileBody s with
        | Except.ok n =>
          ({ st with
              led := update_sync_status st.led s w.now n "success",
              trace := st.trace ++ [Ev.dbWrite s] },
            none)
        | Except.error e => (st, some e)

/-- `sync_tracks_index` (sync_all.py 779-844): no skip check, rebuilds the
derived index; its `try` catches everything and records the outcome. -/
def step_track_index (w : World) (_force : Bool) (st : RunSt) : RunSt × Option String :=
  let st := { st with executed := st.executed ++ [Src.track_index] }
  match w.apiBody Src.track_index with
  | Except.ok n =>
    ({ st with
        led := update_sync_status st.led Src.track_index w.now n "success",
        trace := st.trace ++ [Ev.dbWrite Src.track_index] },
      none)
  | Except.error e =>
    ({ st with
        led := update_sync_status st.led Src.track_index w.now 0
                 ("failed: " ++ truncate50 e) },
      none)

/-- Sequence one conditional stage of `sync_all`'s body: once a pending
exception exists, later stages do not run (it flies to the outer
`except`); otherwise the stage runs when its `sources` condition holds. -/
def seqStep (cur : RunSt × Option String) (cond : Bool)
    (f : RunSt → RunSt × Option String) : RunSt × Option String :=
  match cur.2 with
  | some _ => cur
  | none => if cond then f cur.1 else cur

/-- Result of a run: final state, and whether an exception escaped
`sync_all` (never: its body is wrapped in try/except/finally). -/
structure RunOutcome where
  st : RunSt
  raised : Bool

/-- `sync_all` (sync_all.py 850-986): the seven stages in source order,
each guarded by its `sources is None or ... in sources` condition, all
inside one `try` whose `except` swallows any exception that escaped an
individual routine. -/
def syncAll (w : World) (srcs : Option (List Sel)) (force : Bool) (led0 : Ledger) :
    RunOutcome :=
  let c0 : RunSt × Option String := ({ led := led0, executed := [], trace := [] }, none)
  let c1 := seqStep c0 (srcSel srcs Sel.roon_albums) (step_roon_albums w force)
  let c2 := seqStep c1 (srcSel srcs Sel.roon_albums || srcSel srcs Sel.roon_tags)
              (step_roon_tags w force)
  let c3 := seqStep c2 (srcSel srcs Sel.discogs_collection) (step_discogs_collection w force)
  let c4 := seqStep c3 (srcSel srcs Sel.discogs_wantlist) (step_discogs_wantlist w force)
  let c5 := seqStep c4 (srcSel srcs Sel.roon_tracks) (step_file Src.roon_tracks w force)
  let c6 := seqStep c5 (srcSel srcs Sel.roon_play_history)
              (step_file Src.roon_play_history w force)
  let c7 := seqStep c6 (srcSel srcs Sel.tracks) (step_track_index w force)
  { st := c7.1, raised := false }

/-- The routines `sync_all` invokes for a given `sources` argument, in
source order. -/
def requestedSteps (srcs : Option (List Sel)) : List Src :=
  (if srcSel srcs Sel.roon_albums then [Src.roon_albums] else []) ++
  (if srcSel srcs Sel.roon_albums || srcSel srcs Sel.roon_tags then [Src.roon_tags] else []) ++
  (if srcSel srcs Sel.discogs_collection then [Src.discogs_collection] else []) ++
  (if srcSel srcs Sel.discogs_wantlist then [Src.discogs_wantlist] else []) ++
  (if srcSel srcs Sel.roon_tracks then [Src.roon_tracks] else []) ++
  (if srcSel srcs Sel.roon_play_history then [Src.roon_play_history] else []) ++
  (if srcSel srcs Sel.tracks then [Src.track_index] else [])

/- ===================================================================
   File import in full: `sync_roon_tracks` (sync_all.py 670-721),
   with the `roon_tracks` table made explicit.
   =================================================================== -/

/-- One CSV row of the Roon track export. -/
abbrev TrackRow := List String

/-- Filesystem oracle for the file import: `os.path.exists`,
`os.path.getmtime` (None when it raises), and the parsed rows. -/
structure TracksWorld where
  fileExistsT : Bool
  mtimeT : Option Int
  fileRows : List TrackRow

/-- State touched by `sync_roon_tracks`: its `keep_track` row and the
`roon_tracks` table. -/
structure TracksSt where
  entry : Entry
  table : List TrackRow
deriving DecidableEq

/-- `sync_roon_tracks` (sync_all.py 670-721): read the ledger row; return
0 without touching anything when no path is configured or the file is
missing; when `not force and file_modified and last_sync and
file_modified <= last_sync`, skip and return the current stored row
count; otherwise truncate `roon_tracks`, insert every parsed row, record
success in the ledger and return the imported count. -/
def sync_roon_tracks_model (w : TracksWorld) (force : Bool) (now : Int)
    (st : TracksSt) : TracksSt × Nat :=
  match st.entry.file_path with
  | none => (st, 0)
  | some _ =>
    if w.fileExistsT = false then (st, 0)
    else
      let skip : Bool :=
        !force &&
          (match w.mtimeT, st.entry.last_sync with
           | some m, some t => decide (m ≤ t)
           | _, _ => false)
      if skip then (st, st.table.length)
      else
        let table := w.fileRows
        let n := table.length
        ({ entry := { last_sync := some now, file_path := st.entry.file_path,
                      records_count := n, sync_status := "success",
                      updated_at := some now },
           table := table }, n)

/- ===================================================================
   Remote-library pagination: the album load loop of `sync_roon_albums`
   (sync_all.py 144-166).

       all_albums = []
       offset = 0
       while offset < album_count:
           load_result = roon.browse_load(load_opts)
           items = load_result.get('items', [])
           if not items: break
           all_albums.extend(items)
           offset += len(items)
   =================================================================== -/

/-- The album load loop; `load` is the oracle for
`roon.browse_load({"offset": offset})['items']`, items are identifiers. -/
def roonAlbumsGo (load : Nat → List Nat) (album_count : Nat)
    (offset : Nat) (acc : List Nat) : List Nat :=
  if _hlt : offset < album_count then
    match load offset with
    | [] => acc
    | it :: its => roonAlbumsGo load album_count (offset + (it :: its).length)
                     (acc ++ (it :: its))
  else acc
termination_by album_count - offset
decreasing_by simp only [List.length_cons]; omega

/-- The full accumulation of the album pagination loop. -/
def roonAlbumsLoad (load : Nat → List Nat) (album_count : Nat) : List Nat :=
  roonAlbumsGo load album_count 0 []

/-- A fake paged source reporting 250 items served in pages of up to 100:
page at `offset` holds the identifiers `offset..min (offset+100) 250 - 1`. -/
def fakeLoad250 (offset : Nat) : List Nat :=
  (List.range (min 100 (250 - offset))).map (fun i => offset + i)

/- ===================================================================
   Marketplace catalog adapter in full: the Discogs fetch loop
   (sync_all.py 397-427 / 581-611), `MusicDB.insert_discogs_collection`
   (db_helper.py 236-297) and its caller's unpacking
   (sync_all.py 462-490), and `insert_discogs_wantlist` downstream.
   =================================================================== -/

/-- A Discogs release item after the listing fetch (the fields the
collection insert uses; marketplace stats already merged in). -/
structure DItem where
  id : Int
  artist : String
  album_title : String
  num_for_sale : Option Int
  lowest_price : Option Int
deriving DecidableEq

/-- A row of the `discogs_collection` table (the columns the upsert's
`ON DUPLICATE KEY UPDATE` clause can touch, plus the keys). -/
structure CRow where
  id : Nat
  release_id : Int
  artist : String
  album_title : String
  num_for_sale : Option Int
  lowest_price : Option Int
deriving DecidableEq

/-- The Discogs-side database state: the collection and track tables and
the AUTO_INCREMENT counter. -/
structure DDB where
  discogs_collection : List CRow
  discogs_tracks : List (Nat × Int × String)
  next_id : Nat
deriving DecidableEq

/-- The dynamic value a Python function returns: an integer, `None`, or a
tuple (what a caller that multiple-assigns needs). -/
inductive PyVal
  | vint (n : Nat)
  | vnone
  | vtuple (l : List PyVal)

/-- `MusicDB.insert_discogs_collection` (db_helper.py 236-297):
`INSERT ... ON DUPLICATE KEY UPDATE` keyed by `release_id`, the conflict
clause updating `artist`, `album_title`, `num_for_sale`, `lowest_price`
(and `updated_at`); then
`SELECT id FROM discogs_collection WHERE release_id = ...` and
`return result['id'] if result else None` - a single id, not a tuple. -/
def insert_discogs_collection (db : DDB) (item : DItem) : DDB × PyVal :=
  let db' : DDB :=
    if db.discogs_collection.any (fun r => r.release_id == item.id) then
      { db with
          discogs_collection := db.discogs_collection.map (fun r : CRow =>
            if r.release_id == item.id then
              { r with artist := item.artist, album_title := item.album_title,
                       num_for_sale := item.num_for_sale,
                       lowest_price := item.lowest_price }
            else r) }
    else
      { db with
          discogs_collection := db.discogs_collection ++
            [{ id := db.next_id, release_id := item.id, artist := item.artist,
               album_title := item.album_title, num_for_sale := item.num_for_sale,
               lowest_price := item.lowest_price }],
          next_id := db.next_id + 1 }
  match db'.discogs_collection.find? (fun r => r.release_id == item.id) with
  | some r => (db', PyVal.vint r.id)
  | none => (db', PyVal.vnone)

/-- Python tuple unpacking `a, b, c, d, e = v` of arity `n`: raises
`TypeError` unless `v` is a tuple, `ValueError` unless the arity fits. -/
def pyUnpack (n : Nat) (v : PyVal) : Except String (List PyVal) :=
  match v with
  | PyVal.vtuple l =>
    if l.length = n then Except.ok l
    else Except.error "ValueError: unpack arity mismatch"
  | _ => Except.error "TypeError: cannot unpack non-iterable value"

/-- The insert loop of `sync_discogs_collection` (sync_all.py 462-490):
for each item,
`collection_id, was_duplicate, artist, album_title, release_id =
 db.insert_discogs_collection(item)`.
The insert itself has already mutated the database when the unpacking of
its return value is attempted; an unpack exception aborts the loop with
the state reached so far (the subsequent per-item tracklist fetch is
unreachable, see `c1_upsert_returns_no_pair`, and is therefore elided). -/
def processCollectionItems : DDB → List DItem → DDB × Option String
  | db, [] => (db, none)
  | db, item :: rest =>
    let (db1, r) := insert_discogs_collection db item
    match pyUnpack 5 r with
    | Except.error e => (db1, some e)
    | Except.ok _ => processCollectionItems db1 rest

/-- One HTTP answer of the Discogs listing endpoint: a 200 page carrying
items and the reported total page count, or a bare status code. -/
inductive DResp
  | ok (items : List DItem) (pages : Nat)
  | http (status : Nat)
deriving DecidableEq

/-- The Discogs listing fetch loop (sync_all.py 403-427 and 587-611):
`trace` is the successive HTTP responses; a 200 page is appended and the
page number advances (stopping once `page >= pagination.pages`); a 429
sleeps and retries the SAME page; any other status prints an error and
breaks.  Returns the accumulated items and whether the loop aborted
early.  An exhausted trace is reported as an abort. -/
def discogsFetchLoop : List DResp → Nat → List DItem → List DItem × Bool
  | [], _, acc => (acc, true)
  | r :: rs, page, acc =>
    match r with
    | DResp.ok items pages =>
      let acc' := acc ++ items
      if page ≥ pages then (acc', false)
      else discogsFetchLoop rs (page + 1) acc'
    | DResp.http s =>
      if s == 429 then discogsFetchLoop rs page acc
      else (acc, true)

/-- `sync_discogs_collection` downstream of the listing fetch
(sync_all.py 453-561): truncate `discogs_tracks` and
`discogs_collection`, then run the insert loop over ALL accumulated
items (aborted fetch or not); an exception from the loop is caught by
the routine's `except`, which records `failed: str(e)[:50]` and returns
0; otherwise the item count is recorded as success.  (The Last_Listened
copy step that follows a successful loop touches no table modelled here.)
Returns the final database, the `discogs_collection` ledger status, and
the routine's return value. -/
def syncDiscogsCollectionRun (trace : List DResp) (db : DDB) : DDB × String × Nat :=
  let fetched := discogsFetchLoop trace 1 []
  let items := fetched.1
  let db1 : DDB := { db with discogs_tracks := [], discogs_collection := [] }
  match processCollectionItems db1 items with
  | (db2, some e) => (db2, "failed: " ++ truncate50 e, 0)
  | (db2, none) => (db2, "success", items.length)

/-- A `discogs_wantlist` row (the columns the claims mention). -/
structure WRow where
  release_id : Int
  artist : String
  album_title : String
deriving DecidableEq

/-- `sync_discogs_wantlist` downstream of the listing fetch
(sync_all.py 634-651): truncate `discogs_wantlist`, insert every
accumulated item (`insert_discogs_wantlist`, db_helper.py 315-356),
record success with the item count. -/
def syncDiscogsWantlistRun (trace : List DResp) : List WRow × String × Nat :=
  let fetched := discogsFetchLoop trace 1 []
  let items := fetched.1
  let table := items.map (fun it =>
    { release_id := it.id, artist := it.artist, album_title := it.album_title : WRow })
  (table, "success", items.length)

/- ===================================================================
   Concrete fixtures for counterexamples and witnesses.
   =================================================================== -/

/-- A never-synced ledger row with a configured file path. -/
def entry0 : Entry :=
  { last_sync := none, file_path := some "export.csv", records_count := 0,
    sync_status := "never", updated_at := none }

/-- Ledger where nothing was ever synced. -/
def led0 : Ledger := fun _ => entry0

/-- Run oracle in which every body succeeds except the play-history
file body, which raises "boom". -/
def w0 : World :=
  { now := 1000,
    apiBody := fun _ => Except.ok 5,
    fileExists := fun _ => true,
    mtime := fun _ => none,
    fileBody := fun s =>
      if s = Src.roon_play_history then Except.error "boom" else Except.ok 3,
    dcTracks := 7 }

/-- Ledger whose `roon_tags` row was synced at the current instant, so the
time-gated skip decision would say "skip". -/
def ledTags : Ledger := fun s =>
  if s = Src.roon_tags then
    { last_sync := some 1000, file_path := none, records_count := 4,
      sync_status := "success", updated_at := some 1000 }
  else entry0

/-- Run state for the `roon_tags` counterexample. -/
def stTags : RunSt := { led := ledTags, executed := [], trace := [] }

/-- An all-success oracle. -/
def wOk : World :=
  { now := 1000,
    apiBody := fun _ => Except.ok 5,
    fileExists := fun _ => true,
    mtime := fun _ => none,
    fileBody := fun _ => Except.ok 3,
    dcTracks := 7 }

/-- Two Discogs items and a fetch trace: one 200 page reporting 3 total
pages, a 429 on page 2, the retried page 2, then a 500 that aborts. -/
def item1 : DItem :=
  { id := 101, artist := "Pink Floyd", album_title := "The Wall",
    num_for_sale := some 12, lowest_price := some 20 }

/-- Second fixture item. -/
def item2 : DItem :=
  { id := 102, artist := "Nirvana", album_title := "Nevermind",
    num_for_sale := some 3, lowest_price := some 15 }

/-- Third fixture item, served by the retried page. -/
def item3 : DItem :=
  { id := 103, artist := "Can", album_title := "Future Days",
    num_for_sale := none, lowest_price := none }

/-- The fetch trace described above. -/
def trace0 : List DResp :=
  [DResp.ok [item1, item2] 3, DResp.http 429, DResp.ok [item3] 3, DResp.http 500]

/-- An empty Discogs database. -/
def ddb0 : DDB := { discogs_collection := [], discogs_tracks := [], next_id := 1 }

/-- Initial run state over the never-synced ledger. -/
def st0 : RunSt := { led := led0, executed := [], trace := [] }

/-- Run oracle in which the `roon_albums` body raises and everything else
succeeds. -/
def wErr : World :=
  { now := 1000,
    apiBody := fun s =>
      if s = Src.roon_albums then Except.error "connection reset by peer"
      else Except.ok 5,
    fileExists := fun _ => true,
    mtime := fun _ => none,
    fileBody := fun _ => Except.ok 3,
    dcTracks := 7 }

/-- Ledger in which every source was synced at the current instant and
has a configured file path. -/
def ledAll : Ledger := fun _ =>
  { last_sync := some 1000, file_path := some "export.csv", records_count := 4,
    sync_status := "success", updated_at := some 1000 }

/-- Run state over `ledAll`. -/
def stAll : RunSt := { led := ledAll, executed := [], trace := [] }

/-- All-success oracle with a file modification time predating every
`last_sync` of `ledAll`. -/
def wSkip : World :=
  { now := 1000,
    apiBody := fun _ => Except.ok 5,
    fileExists := fun _ => true,
    mtime := fun _ => some 50,
    fileBody := fun _ => Except.ok 3,
    dcTracks := 7 }

/-- File oracle for the file-import witness: the export exists but was
last modified before the recorded sync. -/
def twOld : TracksWorld :=
  { fileExistsT := true, mtimeT := some 50, fileRows := [["row1"], ["row2"], ["row3"]] }

/-- State for the file-import witness: a configured path, a later
`last_sync`, and two stored rows. -/
def tstOld : TracksSt :=
  { entry := { last_sync := some 100, file_path := some "export.csv",
               records_count := 2, sync_status := "success", updated_at := some 100 },
    table := [["a"], ["b"]] }

/- ===================================================================
   Theorems.  First: supporting lemmas for the normalisation engine.
   =================================================================== -/

/-- Unfolding equation for `pySplitTW` on a cons. -/
theorem pySplitTW_cons (c : Char) (cs : List Char) :
    pySplitTW (c :: cs) =
      if pyIsSpace c then pySplitTW cs
      else (c :: cs.takeWhile (fun d => !pyIsSpace d)) ::
             pySplitTW (cs.dropWhile (fun d => !pyIsSpace d)) := by
  rw [pySplitTW]

/-- The accumulator form of Python split agrees with the
`takeWhile`/`dropWhile` form. -/
theorem pySplitAux_eq (l : List Char) :
    ∀ cur : List Char,
      pySplitAux cur l =
        if cur.isEmpty then pySplitTW l
        else (cur.reverse ++ l.takeWhile (fun d => !pyIsSpace d)) ::
               pySplitTW (l.dropWhile (fun d => !pyIsSpace d)) := by
  induction l with
  | nil =>
    intro cur
    cases cur <;> simp [pySplitAux, pySplitTW]
  | cons c cs ih =>
    intro cur
    by_cases hc : pyIsSpace c
    · cases cur with
      | nil =>
        simp [pySplitAux, hc, ih, pySplitTW_cons]
      | cons a as =>
        simp [pySplitAux, hc, ih, pySplitTW_cons, List.takeWhile_cons, List.dropWhile_cons]
    · cases cur with
      | nil =>
        rw [pySplitAux, if_neg (by simp [hc])]
        rw [ih]
        simp [pySplitTW_cons, hc, List.takeWhile_cons, List.dropWhile_cons]
      | cons a as =>
        rw [pySplitAux, if_neg (by simp [hc])]
        rw [ih]
        simp [hc, List.takeWhile_cons, List.dropWhile_cons]

/-- `pySplit` computes `pySplitTW`. -/
theorem pySplit_eq (l : List Char) : pySplit l = pySplitTW l := by
  rw [pySplit, pySplitAux_eq]
  simp

/-- Unfolding equation for `pySplitTW` on nil. -/
theorem pySplitTW_nil : pySplitTW [] = [] := by rw [pySplitTW]

/-- `joinWords` on a list with at least two words. -/
theorem joinWords_cons₂ (w v : List Char) (ws : List (List Char)) :
    joinWords (w :: v :: ws) = w ++ ' ' :: joinWords (v :: ws) := rfl

/-- Every word produced by the splitter is nonempty, whitespace-free, and
drawn from the input. -/
theorem pySplitTW_good (l : List Char) :
    ∀ w ∈ pySplitTW l, w ≠ [] ∧ ∀ c ∈ w, pyIsSpace c = false ∧ c ∈ l := by
  induction l using pySplitTW.induct with
  | case1 => simp [pySplitTW_nil]
  | case2 c cs hc ih =>
    rw [pySplitTW_cons, if_pos hc]
    intro w hw
    obtain ⟨hne, hall⟩ := ih w hw
    exact ⟨hne, fun d hd => ⟨(hall d hd).1, List.mem_cons_of_mem c (hall d hd).2⟩⟩
  | case3 c cs hc ih =>
    rw [pySplitTW_cons, if_neg hc]
    intro w hw
    rcases List.mem_cons.mp hw with hw | hw
    · subst hw
      refine ⟨by simp, ?_⟩
      intro d hd
      rcases List.mem_cons.mp hd with rfl | hd
      · exact ⟨by simpa using hc, List.mem_cons_self _ _⟩
      · refine ⟨by simpa using List.mem_takeWhile_imp hd, ?_⟩
        exact List.mem_cons_of_mem c ((List.takeWhile_sublist _).subset hd)
    · obtain ⟨hne, hall⟩ := ih w hw
      refine ⟨hne, fun d hd => ⟨(hall d hd).1, ?_⟩⟩
      exact List.mem_cons_of_mem c ((List.dropWhile_sublist _).subset (hall d hd).2)

/-- Splitting a single nonempty whitespace-free word returns it alone. -/
theorem pySplitTW_all_nonspace (w : List Char) (hw : w ≠ [])
    (h : ∀ c ∈ w, pyIsSpace c = false) : pySplitTW w = [w] := by
  cases w with
  | nil => exact absurd rfl hw
  | cons c cs =>
    rw [pySplitTW_cons, if_neg (by simp [h c (List.mem_cons_self c cs)])]
    have htw : cs.takeWhile (fun d => !pyIsSpace d) = cs :=
      List.takeWhile_eq_self_iff.mpr (fun d hd => by
        simp [h d (List.mem_cons_of_mem c hd)])
    have hdw : cs.dropWhile (fun d => !pyIsSpace d) = [] :=
      List.dropWhile_eq_nil_iff.mpr (fun d hd => by
        simp [h d (List.mem_cons_of_mem c hd)])
    rw [htw, hdw, pySplitTW_nil]

/-- Splitting a whitespace-free word followed by a space peels the word. -/
theorem pySplitTW_word_append (w t : List Char) (hw : w ≠ [])
    (h : ∀ c ∈ w, pyIsSpace c = false) :
    pySplitTW (w ++ ' ' :: t) = w :: pySplitTW t := by
  cases w with
  | nil => exact absurd rfl hw
  | cons c cs =>
    rw [List.cons_append, pySplitTW_cons,
        if_neg (by simp [h c (List.mem_cons_self c cs)])]
    have hcs : ∀ d ∈ cs, (fun d => !pyIsSpace d) d = true := fun d hd => by
      simp [h d (List.mem_cons_of_mem c hd)]
    rw [List.takeWhile_append_of_pos hcs, List.dropWhile_append_of_pos hcs]
    rw [List.takeWhile_cons_of_neg (by decide), List.dropWhile_cons_of_neg (by decide)]
    rw [List.append_nil]
    congr 1
    rw [pySplitTW_cons, if_pos (by decide)]

/-- Round trip: splitting a join of good words returns the words. -/
theorem pySplitTW_joinWords (ws : List (List Char))
    (h : ∀ w ∈ ws, w ≠ [] ∧ ∀ c ∈ w, pyIsSpace c = false) :
    pySplitTW (joinWords ws) = ws := by
  induction ws with
  | nil => exact pySplitTW_nil
  | cons w ws ih =>
    cases ws with
    | nil =>
      obtain ⟨hne, hall⟩ := h w (List.mem_cons_self w [])
      exact pySplitTW_all_nonspace w hne hall
    | cons v vs =>
      rw [joinWords_cons₂]
      obtain ⟨hne, hall⟩ := h w (List.mem_cons_self w _)
      rw [pySplitTW_word_append w _ hne hall]
      congr 1
      exact ih (fun u hu => h u (List.mem_cons_of_mem w hu))

/-- Characters of a join are the separator or characters of some word. -/
theorem mem_joinWords (ws : List (List Char)) (c : Char) (hc : c ∈ joinWords ws) :
    c = ' ' ∨ ∃ w ∈ ws, c ∈ w := by
  induction ws with
  | nil => simp [joinWords] at hc
  | cons w ws ih =>
    cases ws with
    | nil =>
      right
      exact ⟨w, List.mem_cons_self w [], hc⟩
    | cons v vs =>
      rw [joinWords_cons₂] at hc
      rcases List.mem_append.mp hc with hc | hc
      · right; exact ⟨w, List.mem_cons_self w _, hc⟩
      · rcases List.mem_cons.mp hc with rfl | hc
        · left; rfl
        · rcases ih hc with h | ⟨u, hu, hcu⟩
          · left; exact h
          · right; exact ⟨u, List.mem_cons_of_mem w hu, hcu⟩

/-- If a join of good words begins with "the ", its first word is exactly
"the" and dropping the four characters leaves the join of the rest. -/
theorem joinWords_the (ws : List (List Char))
    (h : ∀ w ∈ ws, w ≠ [] ∧ ∀ c ∈ w, pyIsSpace c = false)
    (hthe : (joinWords ws).take 4 = ['t', 'h', 'e', ' ']) :
    ∃ ws', ws = ['t', 'h', 'e'] :: ws' ∧ ws' ≠ [] ∧
      (joinWords ws).drop 4 = joinWords ws' := by
  cases ws with
  | nil => simp [joinWords] at hthe
  | cons w ws =>
    cases ws with
    | nil =>
      exfalso
      obtain ⟨hne, hall⟩ := h w (List.mem_cons_self w [])
      have hw : joinWords [w] = w := rfl
      rw [hw] at hthe
      match w, hthe with
      | a :: b :: c :: d :: rest, hthe =>
        have hd : d = ' ' := by simpa using congrArg (fun l => l.get? 3) hthe
        have hps := hall d (by simp)
        rw [hd] at hps
        simp [pyIsSpace] at hps
    | cons v vs =>
      obtain ⟨hne, hall⟩ := h w (List.mem_cons_self w _)
      rw [joinWords_cons₂] at hthe ⊢
      match w, hne with
      | [a], _ =>
        exfalso
        have : (' ' : Char) = 'h' := by simpa using congrArg (fun l => l.get? 1) hthe
        simp at this
      | [a, b], _ =>
        exfalso
        have : (' ' : Char) = 'e' := by simpa using congrArg (fun l => l.get? 2) hthe
        simp at this
      | [a, b, c], _ =>
        have ha : a = 't' := by simpa using congrArg (fun l => l.get? 0) hthe
        have hb : b = 'h' := by simpa using congrArg (fun l => l.get? 1) hthe
        have hc : c = 'e' := by simpa using congrArg (fun l => l.get? 2) hthe
        subst ha hb hc
        exact ⟨v :: vs, rfl, by simp, by simp⟩
      | a :: b :: c :: d :: rest, _ =>
        exfalso
        have hd : d = ' ' := by simpa using congrArg (fun l => l.get? 3) hthe
        have hps := hall d (by simp)
        rw [hd] at hps
        simp [pyIsSpace] at hps

/-- `collapseRuns` passes a non-whitespace head through. -/
theorem collapseRuns_cons_nonspace {c : Char} (l : List Char)
    (hc : pyIsSpace c = false) : collapseRuns (c :: l) = c :: collapseRuns l := by
  cases l <;> simp [collapseRuns, hc]

/-- `collapseRuns` turns a whitespace head and the rest of its run into a
single space. -/
theorem collapseRuns_cons_space (l : List Char) :
    ∀ c : Char, pyIsSpace c = true →
      collapseRuns (c :: l) = ' ' :: collapseRuns (l.dropWhile pyIsSpace) := by
  induction l with
  | nil => intro c hc; simp [collapseRuns, hc]
  | cons d cs ih =>
    intro c hc
    by_cases hd : pyIsSpace d
    · rw [show collapseRuns (c :: d :: cs) = collapseRuns (d :: cs) by
        simp [collapseRuns, hc, hd]]
      rw [ih d hd, List.dropWhile_cons_of_pos hd]
    · simp [collapseRuns, hc, hd, List.dropWhile_cons_of_neg]

/-- `collapseRuns` passes a whitespace-free block through. -/
theorem collapseRuns_word_append (w t : List Char)
    (hw : ∀ c ∈ w, pyIsSpace c = false) :
    collapseRuns (w ++ t) = w ++ collapseRuns t := by
  induction w with
  | nil => simp
  | cons c cs ih =>
    rw [List.cons_append,
        collapseRuns_cons_nonspace _ (hw c (List.mem_cons_self c cs)),
        ih (fun d hd => hw d (List.mem_cons_of_mem c hd))]
    rfl

/-- `dropWhile` is the identity on whitespace-free lists. -/
theorem dropWhile_of_nonspace (y : List Char)
    (h : ∀ x ∈ y, pyIsSpace x = false) : y.dropWhile pyIsSpace = y := by
  cases y with
  | nil => rfl
  | cons c cs => exact List.dropWhile_cons_of_neg (by simp [h c (List.mem_cons_self c cs)])

/-- Trimming is the identity on whitespace-free lists. -/
theorem trimEnds_nonspace (y : List Char)
    (h : ∀ x ∈ y, pyIsSpace x = false) : trimEnds y = y := by
  rw [trimEnds, dropWhile_of_nonspace y h,
      dropWhile_of_nonspace _ (fun x hx => h x (List.mem_reverse.mp hx)),
      List.reverse_reverse]

/-- Trimming a whitespace-free word with one trailing space drops it. -/
theorem trimEnds_word_space (a : List Char)
    (h : ∀ x ∈ a, pyIsSpace x = false) (hne : a ≠ []) :
    trimEnds (a ++ [' ']) = a := by
  match a, hne with
  | c :: cs, _ =>
    have hmem : ∀ x ∈ cs.reverse ++ [c], pyIsSpace x = false := by
      intro x hx
      rcases List.mem_append.mp hx with hx | hx
      · exact h x (List.mem_cons_of_mem c (List.mem_reverse.mp hx))
      · rcases List.mem_singleton.mp hx with rfl
        exact h x (List.mem_cons_self x cs)
    rw [trimEnds, List.cons_append,
        List.dropWhile_cons_of_neg (by simp [h c (List.mem_cons_self c cs)])]
    have h1 : (c :: (cs ++ [' '])).reverse = ' ' :: (cs.reverse ++ [c]) := by simp
    rw [h1, List.dropWhile_cons_of_pos (by decide),
        dropWhile_of_nonspace _ hmem]
    simp

/-- Trimming a word, a separating space, and a block that begins with a
non-whitespace character trims only inside the block. -/
theorem trimEnds_word_append (a z : List Char)
    (ha : ∀ x ∈ a, pyIsSpace x = false) (hane : a ≠ [])
    (f : Char) (z' : List Char) (hz : z = f :: z') (hf : pyIsSpace f = false) :
    trimEnds (a ++ ' ' :: z) = a ++ ' ' :: trimEnds z := by
  match a, hane with
  | c :: cs, _ =>
    have hdz : z.dropWhile pyIsSpace = z := by
      rw [hz]; exact List.dropWhile_cons_of_neg (by simp [hf])
    have hnz : (z.reverse.dropWhile pyIsSpace).isEmpty = false := by
      cases hdw : z.reverse.dropWhile pyIsSpace with
      | cons u us => rfl
      | nil =>
        exfalso
        have hsp : pyIsSpace f = true :=
          List.dropWhile_eq_nil_iff.mp hdw f (by rw [hz]; simp)
        simp [hf] at hsp
    rw [trimEnds, List.cons_append,
        List.dropWhile_cons_of_neg (by simp [ha c (List.mem_cons_self c cs)])]
    have h1 : (c :: (cs ++ ' ' :: z)).reverse = z.reverse ++ ' ' :: (cs.reverse ++ [c]) := by
      simp
    rw [h1, List.dropWhile_append, if_neg (by simp [hnz])]
    rw [List.reverse_append]
    rw [trimEnds, hdz]
    simp

/-- The splitter ignores leading whitespace. -/
theorem pySplitTW_dropWhile (cs : List Char) :
    pySplitTW (cs.dropWhile pyIsSpace) = pySplitTW cs := by
  induction cs with
  | nil => rfl
  | cons d cs ih =>
    by_cases hd : pyIsSpace d
    · rw [List.dropWhile_cons_of_pos hd, ih, pySplitTW_cons, if_pos hd]
    · rw [List.dropWhile_cons_of_neg (by simp [hd])]

/-- The head surviving a `dropWhile` fails the predicate. -/
theorem head_of_dropWhile_false {p : Char → Bool} {cs dw : List Char} {e : Char}
    (h : cs.dropWhile p = e :: dw) : p e = false := by
  induction cs with
  | nil => simp at h
  | cons d ds ih =>
    by_cases hd : p d
    · rw [List.dropWhile_cons_of_pos hd] at h
      exact ih h
    · rw [List.dropWhile_cons_of_neg hd] at h
      injection h with h1 h2
      subst h1
      simpa using hd

/-- Bounded form of the equivalence between the source's
split-and-rejoin and the specification's collapse-and-trim. -/
theorem collapse_trim_bounded (n : Nat) :
    ∀ l : List Char, l.length ≤ n →
      trimEnds (collapseRuns l) = joinWords (pySplitTW l) := by
  induction n with
  | zero =>
    intro l hl
    have hnil : l = [] := List.length_eq_zero.mp (Nat.le_zero.mp hl)
    subst hnil
    rw [pySplitTW_nil]
    rfl
  | succ n ih =>
    intro l hl
    match l with
    | [] => rw [pySplitTW_nil]; rfl
    | c :: cs =>
      have hcs : cs.length ≤ n := by simpa using hl
      by_cases hc : pyIsSpace c
      · rw [collapseRuns_cons_space cs c hc]
        have hlead : trimEnds (' ' :: collapseRuns (cs.dropWhile pyIsSpace)) =
            trimEnds (collapseRuns (cs.dropWhile pyIsSpace)) := by
          rw [trimEnds, trimEnds, List.dropWhile_cons_of_pos (by decide)]
        rw [hlead,
            ih _ (le_trans (List.dropWhile_sublist _).length_le hcs),
            pySplitTW_dropWhile, pySplitTW_cons, if_pos hc]
      · have hcb : pyIsSpace c = false := by simpa using hc
        have htwns : ∀ d ∈ cs.takeWhile (fun d => !pyIsSpace d), pyIsSpace d = false := by
          intro d hd
          simpa using List.mem_takeWhile_imp hd
        have hsplit := List.takeWhile_append_dropWhile (fun d => !pyIsSpace d) cs
        have hwordgood : ∀ x ∈ c :: cs.takeWhile (fun d => !pyIsSpace d),
            pyIsSpace x = false := by
          intro x hx
          rcases List.mem_cons.mp hx with rfl | hx
          · exact hcb
          · exact htwns x hx
        rw [pySplitTW_cons, if_neg hc]
        rw [collapseRuns_cons_nonspace _ hcb,
            show collapseRuns cs =
              collapseRuns (cs.takeWhile (fun d => !pyIsSpace d) ++
                cs.dropWhile (fun d => !pyIsSpace d)) by rw [hsplit],
            collapseRuns_word_append _ _ htwns]
        cases hdw : cs.dropWhile (fun d => !pyIsSpace d) with
        | nil =>
          rw [show collapseRuns [] = [] from rfl, List.append_nil, pySplitTW_nil,
              trimEnds_nonspace _ hwordgood]
          rfl
        | cons e dw =>
          have he : pyIsSpace e = true := by
            have h1 := head_of_dropWhile_false hdw
            simpa using h1
          have hrest : pySplitTW (e :: dw) = pySplitTW (dw.dropWhile pyIsSpace) := by
            rw [pySplitTW_cons, if_pos he, pySplitTW_dropWhile]
          have hd2len : (dw.dropWhile pyIsSpace).length ≤ n := by
            have h1 : (e :: dw).length ≤ cs.length :=
              hdw ▸ (List.dropWhile_sublist _).length_le
            have h2 := (List.dropWhile_sublist (l := dw) pyIsSpace).length_le
            simp only [List.length_cons] at h1
            omega
          rw [collapseRuns_cons_space dw e he, hrest]
          cases hd2 : dw.dropWhile pyIsSpace with
          | nil =>
            rw [pySplitTW_nil, show collapseRuns [] = [] from rfl,
                ← List.cons_append, trimEnds_word_space _ hwordgood (by simp)]
            rfl
          | cons f d2 =>
            have hf : pyIsSpace f = false := head_of_dropWhile_false hd2
            have hlen2 : (f :: d2).length ≤ n := by rw [← hd2]; exact hd2len
            rw [collapseRuns_cons_nonspace _ hf, ← List.cons_append]
            rw [trimEnds_word_append _ _ hwordgood (by simp) f (collapseRuns d2) rfl hf]
            rw [← collapseRuns_cons_nonspace _ hf, ih _ hlen2]
            rw [pySplitTW_cons, if_neg (by simp [hf]), joinWords_cons₂]

/-- The source's `' '.join(s.split())` equals the specification's
"collapse runs of whitespace to one space and drop leading and trailing
whitespace". -/
theorem collapse_trim_eq (l : List Char) :
    trimEnds (collapseRuns l) = joinWords (pySplitTW l) :=
  collapse_trim_bounded l.length l (le_refl _)

/-- Code points of the modelled whitespace characters. -/
theorem pyIsSpace_toNat {c : Char} (h : pyIsSpace c = true) :
    c.toNat = 32 ∨ c.toNat = 9 ∨ c.toNat = 10 ∨ c.toNat = 13 ∨
      c.toNat = 11 ∨ c.toNat = 12 := by
  simp only [pyIsSpace, Bool.or_eq_true, beq_iff_eq] at h
  rcases h with ((((h | h) | h) | h) | h) | h <;> subst h <;> decide

/-- Lowercasing fixes every character the normalisation filter keeps. -/
theorem keepChar_pyLower {c : Char} (h : keepChar c = true) : pyLower c = c := by
  rw [pyLower, if_neg]
  simp only [keepChar, Bool.or_eq_true, Bool.and_eq_true, decide_eq_true_eq] at h
  rcases h with (⟨h1, h2⟩ | ⟨h1, h2⟩) | h
  · simp only [Bool.and_eq_true, decide_eq_true_eq, not_and]
    omega
  · simp only [Bool.and_eq_true, decide_eq_true_eq, not_and]
    omega
  · rcases pyIsSpace_toNat h with h | h | h | h | h | h <;>
      simp only [Bool.and_eq_true, decide_eq_true_eq, not_and] <;> omega

/-- Mapping the lowercase function over kept characters is the identity. -/
theorem map_pyLower_fix {l : List Char} (h : ∀ c ∈ l, keepChar c = true) :
    l.map pyLower = l := by
  induction l with
  | nil => rfl
  | cons c cs ih =>
    rw [List.map_cons, keepChar_pyLower (h c (List.mem_cons_self c cs)),
        ih (fun d hd => h d (List.mem_cons_of_mem c hd))]

/-- Every normalisation output is a join of nonempty, whitespace-free
words made of kept characters. -/
theorem normalizeList_form (l : List Char) :
    ∃ ws, (∀ w ∈ ws, w ≠ [] ∧ ∀ c ∈ w, pyIsSpace c = false ∧ keepChar c = true) ∧
      normalizeList l = joinWords ws := by
  set m := (l.map pyLower).filter keepChar with hm
  have hgood0 := pySplitTW_good m
  have hkeepm : ∀ c ∈ m, keepChar c = true := fun c hc => (List.mem_filter.mp hc).2
  have hgood : ∀ w ∈ pySplitTW m, w ≠ [] ∧ ∀ c ∈ w, pyIsSpace c = false := by
    intro w hw
    exact ⟨(hgood0 w hw).1, fun c hc => ((hgood0 w hw).2 c hc).1⟩
  by_cases hthe : (joinWords (pySplitTW m)).take 4 = ['t', 'h', 'e', ' ']
  · obtain ⟨ws', hws', hne', hdrop⟩ := joinWords_the (pySplitTW m) hgood hthe
    refine ⟨ws', ?_, ?_⟩
    · intro w hw
      have hwmem : w ∈ pySplitTW m := by rw [hws']; exact List.mem_cons_of_mem _ hw
      exact ⟨(hgood0 w hwmem).1, fun c hc =>
        ⟨((hgood0 w hwmem).2 c hc).1, hkeepm c ((hgood0 w hwmem).2 c hc).2⟩⟩
    · rw [normalizeList, pySplit_eq, ← hm, stripThe, if_pos hthe]
      exact hdrop
  · refine ⟨pySplitTW m, ?_, ?_⟩
    · intro w hw
      exact ⟨(hgood0 w hw).1, fun c hc =>
        ⟨((hgood0 w hw).2 c hc).1, hkeepm c ((hgood0 w hw).2 c hc).2⟩⟩
    · rw [normalizeList, pySplit_eq, ← hm, stripThe, if_neg hthe]

/-- Normalising twice equals normalising once followed by one more
leading-"the " strip: the lowercase, filter and split-rejoin stages all
fix a normalised string, and only the final strip can act again. -/
theorem normalizeList_double (l : List Char) :
    normalizeList (normalizeList l) = stripThe (normalizeList l) := by
  obtain ⟨ws, hgood, hout⟩ := normalizeList_form l
  have hkeep : ∀ c ∈ joinWords ws, keepChar c = true := by
    intro c hc
    rcases mem_joinWords ws c hc with rfl | ⟨w, hw, hcw⟩
    · decide
    · exact ((hgood w hw).2 c hcw).2
  have hmap : (joinWords ws).map pyLower = joinWords ws := map_pyLower_fix hkeep
  have hfil : (joinWords ws).filter keepChar = joinWords ws :=
    List.filter_eq_self.mpr hkeep
  conv_lhs => rw [hout, normalizeList, hmap, hfil, pySplit_eq,
    pySplitTW_joinWords ws (fun w hw =>
      ⟨(hgood w hw).1, fun c hc => ((hgood w hw).2 c hc).1⟩)]
  rw [hout]

/-- Reduction of `normalize_string` on a present argument. -/
theorem normalize_string_some (t : String) :
    normalize_string (some t) =
      if t = "" then "" else String.mk (normalizeList t.data) := rfl

/-- C3 counterexample: the claim "normalize(normalize(s)) == normalize(s)
for every string s" is false at s = "the the x", whose normalisation
"the x" loses a further leading "the " when normalised again. -/
theorem c3_normalize_not_idempotent :
    normalize_string (some (normalize_string (some "the the x"))) ≠
      normalize_string (some "the the x") := by
  decide

/-- C3 (amended): normalisation is idempotent on every string whose
normalisation does not itself begin with "the ": for such strings
`normalize(normalize(s)) == normalize(s)`. -/
theorem c3_normalize_idempotent_amended (s : String)
    (h : (normalize_string (some s)).data.take 4 ≠ ['t', 'h', 'e', ' ']) :
    normalize_string (some (normalize_string (some s))) =
      normalize_string (some s) := by
  by_cases hs : s = ""
  · subst hs; rfl
  · have hXdata : (normalize_string (some s)).data = normalizeList s.data := by
      rw [normalize_string_some, if_neg hs]
    have h' : (normalizeList s.data).take 4 ≠ ['t', 'h', 'e', ' '] := by
      rw [← hXdata]; exact h
    rw [normalize_string_some s, if_neg hs]
    by_cases hz : normalizeList s.data = []
    · rw [hz]
      decide
    · have hne : String.mk (normalizeList s.data) ≠ "" := by
        intro hcon
        exact hz (by simpa using congrArg String.data hcon)
      rw [normalize_string_some (String.mk (normalizeList s.data)), if_neg hne]
      have hdata : (String.mk (normalizeList s.data)).data = normalizeList s.data := rfl
      rw [hdata, normalizeList_double]
      rw [stripThe, if_neg h']

/-- Witness for the amended C3 theorem at a concrete input. -/
theorem c3_normalize_idempotent_amended_witness :
    normalize_string (some (normalize_string (some "Hello, World!"))) =
      normalize_string (some "Hello, World!") :=
  c3_normalize_idempotent_amended "Hello, World!" (by decide)

/-- C4 counterexample: the claim's reference normalisation (which strips
tabs and newlines before collapsing) disagrees with the code at "a\tb":
the code yields "a b", the reference yields "ab". -/
theorem c4_normalize_not_reference :
    normalize_string (some "a\tb") ≠ specNormalizeOrig (some "a\tb") := by
  decide

/-- C4 (amended): for every input (any string or null), the code's
normalisation equals the reference applied in order: lowercase; strip
every character outside `[a-z0-9]` except whitespace (tabs and newlines
are kept as whitespace); collapse runs of whitespace to one space and
drop leading and trailing whitespace; strip one leading "the " if
present; empty or null input yields the empty string. -/
theorem c4_normalize_matches_amended_reference (s : Option String) :
    normalize_string s = specNormalizeAmended s := by
  cases s with
  | none => rfl
  | some s =>
    by_cases hs : s = ""
    · subst hs; rfl
    · show (if s = "" then "" else String.mk (normalizeList s.data)) =
        if s = "" then ""
        else String.mk (stripThe (trimEnds (collapseRuns
          ((s.data.map pyLower).filter keepChar))))
      rw [if_neg hs, if_neg hs]
      congr 1
      rw [normalizeList, pySplit_eq, ← collapse_trim_eq]

/-- C5: the skip decision is false when `force` is true or no prior
`last_sync` exists; otherwise it is true exactly when `now - last_sync`
is under the 7-day threshold; in particular a sync 6 days old is
skipped, a sync 8 days old is not, and `force` always disables the
skip. -/
theorem c5_skip_policy (now t : Int) (ls : Option Int) :
    should_skip_sync true ls now = false ∧
    should_skip_sync false none now = false ∧
    (should_skip_sync false (some t) now = true ↔ now - t < SKIP_DAYS * 86400) ∧
    should_skip_sync false (some (now - 6 * 86400)) now = true ∧
    should_skip_sync false (some (now - 8 * 86400)) now = false := by
  have hred : ∀ u : Int, should_skip_sync false (some u) now =
      if (now - u) / 86400 < (7 : Int) then true else false := fun u => rfl
  refine ⟨rfl, rfl, ?_, ?_, ?_⟩
  · rw [hred]
    constructor
    · intro h
      by_cases hlt : (now - t) / 86400 < (7 : Int)
      · show now - t < 7 * 86400
        omega
      · rw [if_neg hlt] at h
        cases h
    · intro h
      have h7 : now - t < 7 * 86400 := h
      rw [if_pos (by omega)]
  · rw [hred, if_pos (by omega)]
  · rw [hred, if_neg (by omega)]

/-- C7: for a file-backed source with `force = false`, a recorded
`last_sync` and a source-file modification time not later than it, the
sync is skipped regardless of elapsed days: the ledger row and the
stored table are untouched and the existing stored row count is
returned. -/
theorem c7_file_source_mtime_skip (w : TracksWorld) (st : TracksSt) (now : Int)
    (p : String) (m t : Int)
    (hp : st.entry.file_path = some p)
    (hex : w.fileExistsT = true)
    (hm : w.mtimeT = some m)
    (ht : st.entry.last_sync = some t)
    (hle : m ≤ t) :
    sync_roon_tracks_model w false now st = (st, st.table.length) := by
  rw [sync_roon_tracks_model]
  rw [hp]
  simp only [hex, hm, ht, Bool.not_false, Bool.true_and]
  rw [if_neg (by simp)]
  rw [if_pos (by simp [hle])]

/-- Witness for C7 at a concrete state. -/
theorem c7_file_source_mtime_skip_witness :
    sync_roon_tracks_model twOld false 999 tstOld = (tstOld, 2) :=
  c7_file_source_mtime_skip twOld tstOld 999 "export.csv" 50 100
    (by decide) (by decide) (by decide) (by decide) (by decide)

/-- The pagination loop returns the accumulator once the offset reaches
the reported count. -/
theorem roonAlbumsGo_stop (load : Nat → List Nat) (count offset : Nat)
    (acc : List Nat) (h : count ≤ offset) :
    roonAlbumsGo load count offset acc = acc := by
  rw [roonAlbumsGo, dif_neg (by omega)]

/-- The pagination loop stops on an empty page. -/
theorem roonAlbumsGo_empty (load : Nat → List Nat) (count offset : Nat)
    (acc : List Nat) (h : offset < count) (he : load offset = []) :
    roonAlbumsGo load count offset acc = acc := by
  rw [roonAlbumsGo, dif_pos h, he]

/-- One non-empty page: append the items and advance the offset by the
page's length. -/
theorem roonAlbumsGo_step (load : Nat → List Nat) (count offset : Nat)
    (acc : List Nat) (h : offset < count) (hne : load offset ≠ []) :
    roonAlbumsGo load count offset acc =
      roonAlbumsGo load count (offset + (load offset).length) (acc ++ load offset) := by
  rw [roonAlbumsGo, dif_pos h]
  cases hl : load offset with
  | nil => exact absurd hl hne
  | cons it its => rfl

/-- C9: the remote-library pagination loop appends each returned page and
advances the offset, stopping when the offset reaches the reported total
count or a page comes back empty; and against a fake paged source
reporting 250 items in pages of up to 100, the loop accumulates exactly
250 items. -/
theorem c9_pagination (load : Nat → List Nat) (count offset : Nat) (acc : List Nat) :
    (count ≤ offset → roonAlbumsGo load count offset acc = acc) ∧
    (offset < count → load offset = [] → roonAlbumsGo load count offset acc = acc) ∧
    (offset < count → load offset ≠ [] →
      roonAlbumsGo load count offset acc =
        roonAlbumsGo load count (offset + (load offset).length) (acc ++ load offset)) ∧
    (roonAlbumsLoad fakeLoad250 250).length = 250 := by
  refine ⟨roonAlbumsGo_stop load count offset acc,
          roonAlbumsGo_empty load count offset acc,
          roonAlbumsGo_step load count offset acc, ?_⟩
  have l0 : (fakeLoad250 0).length = 100 := by simp [fakeLoad250]
  have l100 : (fakeLoad250 100).length = 100 := by simp [fakeLoad250]
  have l200 : (fakeLoad250 200).length = 50 := by simp [fakeLoad250]
  have ne0 : fakeLoad250 0 ≠ [] := by
    intro h
    have := congrArg List.length h
    rw [l0] at this
    simp at this
  have ne100 : fakeLoad250 100 ≠ [] := by
    intro h
    have := congrArg List.length h
    rw [l100] at this
    simp at this
  have ne200 : fakeLoad250 200 ≠ [] := by
    intro h
    have := congrArg List.length h
    rw [l200] at this
    simp at this
  rw [roonAlbumsLoad,
      roonAlbumsGo_step fakeLoad250 250 0 [] (by omega) ne0, l0,
      roonAlbumsGo_step fakeLoad250 250 (0 + 100) _ (by omega) (by simpa using ne100)]
  rw [show (0 + 100 : Nat) = 100 from rfl] 
  rw [l100,
      roonAlbumsGo_step fakeLoad250 250 (100 + 100) _ (by omega) (by simpa using ne200)]
  rw [show (100 + 100 : Nat) = 200 from rfl]
  rw [l200, roonAlbumsGo_stop fakeLoad250 250 (200 + 50) _ (by omega)]
  simp [l0, l100, l200]

/-- Witness for C9: each stopping rule and the step rule at concrete
inputs, plus the 250-item accumulation. -/
theorem c9_pagination_witness :
    roonAlbumsGo (fun _ => [7]) 5 5 [1, 2] = [1, 2] ∧
    roonAlbumsGo (fun _ => []) 5 0 [1] = [1] ∧
    roonAlbumsGo (fun _ => [7]) 5 0 [] = roonAlbumsGo (fun _ => [7]) 5 1 [7] ∧
    (roonAlbumsLoad fakeLoad250 250).length = 250 := by
  refine ⟨(c9_pagination (fun _ => [7]) 5 5 [1, 2]).1 (by omega),
          (c9_pagination (fun _ => []) 5 0 [1]).2.1 (by omega) rfl,
          ?_,
          (c9_pagination (fun _ => [7]) 5 0 []).2.2.2⟩
  have h := (c9_pagination (fun _ => [7]) 5 0 []).2.2.1 (by omega) (by simp)
  simpa using h

/-- C1: `insert_discogs_collection` never returns a pair - it returns a
bare id (or `None`) - so the caller's five-name unpacking
`collection_id, was_duplicate, artist, album_title, release_id = ...`
raises `TypeError` on the very first item of every batch, aborting the
insert loop before any duplicate can be reported. -/
theorem c1_upsert_returns_no_pair (db : DDB) (item : DItem) (rest : List DItem) :
    ((insert_discogs_collection db item).2 = PyVal.vnone ∨
      ∃ n, (insert_discogs_collection db item).2 = PyVal.vint n) ∧
    processCollectionItems db (item :: rest) =
      ((insert_discogs_collection db item).1,
        some "TypeError: cannot unpack non-iterable value") := by
  have hshape : (insert_discogs_collection db item).2 = PyVal.vnone ∨
      ∃ n, (insert_discogs_collection db item).2 = PyVal.vint n := by
    simp only [insert_discogs_collection]
    split
    · right; exact ⟨_, rfl⟩
    · left; rfl
  refine ⟨hshape, ?_⟩
  simp only [processCollectionItems]
  rcases h : insert_discogs_collection db item with ⟨db1, r⟩
  rw [h] at hshape
  rcases hshape with hr | ⟨n, hr⟩ <;> simp only at hr <;> subst hr <;> rfl

/-- C8: in the marketplace fetch loop a 429 retries the same page without
advancing and any other non-200 aborts the loop with the accumulated
items kept; the wantlist routine then stores every accumulated item, but
the collection routine crashes unpacking the upsert's return value on
the first item (see C1), so with items [101, 102, 103] accumulated only
release 101 reaches the table and the source is marked failed. -/
theorem c8_marketplace_fetch_loop :
    (∀ (rs : List DResp) (page : Nat) (acc : List DItem),
      discogsFetchLoop (DResp.http 429 :: rs) page acc =
        discogsFetchLoop rs page acc) ∧
    (∀ (rs : List DResp) (page : Nat) (acc : List DItem),
      discogsFetchLoop (DResp.http 500 :: rs) page acc = (acc, true)) ∧
    discogsFetchLoop trace0 1 [] = ([item1, item2, item3], true) ∧
    syncDiscogsWantlistRun trace0 =
      ([{ release_id := 101, artist := "Pink Floyd", album_title := "The Wall" },
        { release_id := 102, artist := "Nirvana", album_title := "Nevermind" },
        { release_id := 103, artist := "Can", album_title := "Future Days" }],
       "success", 3) ∧
    (syncDiscogsCollectionRun trace0 ddb0).1.discogs_collection.map
        (fun r => r.release_id) = [101] ∧
    (syncDiscogsCollectionRun trace0 ddb0).2 =
      ("failed: TypeError: cannot unpack non-iterable value", 0) := by
  exact ⟨fun rs page acc => rfl, fun rs page acc => rfl,
         by decide, by decide, by decide, by decide⟩

/-- The albums routine traps every exception of its body. -/
theorem step_roon_albums_snd (w : World) (force : Bool) :
    ∀ st : RunSt, (step_roon_albums w force st).2 = none := by
  intro st
  simp only [step_roon_albums]
  split
  · rfl
  · cases w.apiBody Src.roon_albums <;> rfl

/-- The tags routine traps every exception of its body. -/
theorem step_roon_tags_snd (w : World) (force : Bool) :
    ∀ st : RunSt, (step_roon_tags w force st).2 = none := by
  intro st
  simp only [step_roon_tags]
  cases w.apiBody Src.roon_tags <;> rfl

/-- The collection routine traps every exception of its body. -/
theorem step_discogs_collection_snd (w : World) (force : Bool) :
    ∀ st : RunSt, (step_discogs_collection w force st).2 = none := by
  intro st
  simp only [step_discogs_collection]
  split
  · rfl
  · cases w.apiBody Src.discogs_collection <;> rfl

/-- The wantlist routine traps every exception of its body. -/
theorem step_discogs_wantlist_snd (w : World) (force : Bool) :
    ∀ st : RunSt, (step_discogs_wantlist w force st).2 = none := by
  intro st
  simp only [step_discogs_wantlist]
  split
  · rfl
  · cases w.apiBody Src.discogs_wantlist <;> rfl

/-- The track-index routine traps every exception of its body. -/
theorem step_track_index_snd (w : World) (force : Bool) :
    ∀ st : RunSt, (step_track_index w force st).2 = none := by
  intro st
  simp only [step_track_index]
  cases w.apiBody Src.track_index <;> rfl

/-- A file routine whose body succeeds raises nothing. -/
theorem step_file_snd_of_ok (s : Src) (w : World) (force : Bool)
    (h : (w.fileBody s).isOk = true) :
    ∀ st : RunSt, (step_file s w force st).2 = none := by
  intro st
  simp only [step_file]
  cases hfp : (st.led s).file_path with
  | none => rfl
  | some p =>
    by_cases hex : w.fileExists s = false
    · rw [if_pos hex]
    · rw [if_neg hex]
      by_cases hskip : (!force &&
          (match w.mtime s, (st.led s).last_sync with
           | some m, some t => decide (m ≤ t)
           | _, _ => false)) = true
      · rw [if_pos hskip]
      · rw [if_neg hskip]
        cases hb : w.fileBody s with
        | ok n => rfl
        | error e =>
          rw [hb] at h
          simp [Except.isOk, Except.toBool] at h

/-- Every routine marks itself invoked, in every branch. -/
theorem step_roon_albums_exec (w : World) (force : Bool) :
    ∀ st : RunSt, (step_roon_albums w force st).1.executed =
      st.executed ++ [Src.roon_albums] := by
  intro st
  simp only [step_roon_albums]
  split
  · rfl
  · cases w.apiBody Src.roon_albums <;> rfl

/-- The tags routine marks itself invoked, in every branch. -/
theorem step_roon_tags_exec (w : World) (force : Bool) :
    ∀ st : RunSt, (step_roon_tags w force st).1.executed =
      st.executed ++ [Src.roon_tags] := by
  intro st
  simp only [step_roon_tags]
  cases w.apiBody Src.roon_tags <;> rfl

/-- The collection routine marks itself invoked, in every branch. -/
theorem step_discogs_collection_exec (w : World) (force : Bool) :
    ∀ st : RunSt, (step_discogs_collection w force st).1.executed =
      st.executed ++ [Src.discogs_collection] := by
  intro st
  simp only [step_discogs_collection]
  split
  · rfl
  · cases w.apiBody Src.discogs_collection <;> rfl

/-- The wantlist routine marks itself invoked, in every branch. -/
theorem step_discogs_wantlist_exec (w : World) (force : Bool) :
    ∀ st : RunSt, (step_discogs_wantlist w force st).1.executed =
      st.executed ++ [Src.discogs_wantlist] := by
  intro st
  simp only [step_discogs_wantlist]
  split
  · rfl
  · cases w.apiBody Src.discogs_wantlist <;> rfl

/-- The track-index routine marks itself invoked, in every branch. -/
theorem step_track_index_exec (w : World) (force : Bool) :
    ∀ st : RunSt, (step_track_index w force st).1.executed =
      st.executed ++ [Src.track_index] := by
  intro st
  simp only [step_track_index]
  cases w.apiBody Src.track_index <;> rfl

/-- A file routine marks itself invoked, in every branch. -/
theorem step_file_exec (s : Src) (w : World) (force : Bool) :
    ∀ st : RunSt, (step_file s w force st).1.executed = st.executed ++ [s] := by
  intro st
  simp only [step_file]
  cases (st.led s).file_path with
  | none => rfl
  | some p =>
    by_cases hex : w.fileExists s = false
    · rw [if_pos hex]
    · rw [if_neg hex]
      by_cases hskip : (!force &&
          (match w.mtime s, (st.led s).last_sync with
           | some m, some t => decide (m ≤ t)
           | _, _ => false)) = true
      · rw [if_pos hskip]
      · rw [if_neg hskip]
        cases w.fileBody s <;> rfl

/-- One stage of the orchestrator: with no pending exception and a stage
that raises none, the stage contributes itself to the executed list
exactly when its condition holds. -/
theorem seqStep_spec (cur : RunSt × Option String) (cond : Bool)
    (f : RunSt → RunSt × Option String) (s : Src)
    (hf2 : ∀ st, (f st).2 = none)
    (hfex : ∀ st, (f st).1.executed = st.executed ++ [s])
    (hcur : cur.2 = none) :
    (seqStep cur cond f).2 = none ∧
    (seqStep cur cond f).1.executed =
      cur.1.executed ++ (if cond then [s] else []) := by
  rcases cur with ⟨st, pend⟩
  simp only at hcur
  subst hcur
  simp only [seqStep]
  cases cond with
  | true => simpa using ⟨hf2 st, hfex st⟩
  | false => simp

/-- C2 counterexample: with every body succeeding except the
play-history file import (which raises "boom"), a full run finishes
without the track-index stage ever executing, and nothing is recorded in
the ledger for the failed source - its status is still the initial
"never", not a truncated error message. -/
theorem c2_file_failure_unrecorded_and_blocking :
    (syncAll w0 none false led0).st.executed =
      [Src.roon_albums, Src.roon_tags, Src.discogs_collection,
       Src.discogs_wantlist, Src.roon_tracks, Src.roon_play_history] ∧
    Src.track_index ∉ (syncAll w0 none false led0).st.executed ∧
    ((syncAll w0 none false led0).st.led Src.roon_play_history).sync_status =
      "never" := by
  refine ⟨by decide, by decide, by decide⟩

/-- C2 (amended): an exception inside an API-backed or track-index
routine is caught there, recorded in that source's ledger row as
"failed: " plus the message truncated to 50 characters, and the routine
returns normally, so every remaining requested source still executes; an
exception inside a file-backed routine (roon_tracks, roon_play_history)
either does not arise (the import did not run) or escapes the routine
with nothing recorded for it; and in every case no exception propagates
past `sync_all`, whose outer handler swallows whatever reaches it.  When
neither file import raises, the executed list is exactly the requested
list. -/
theorem c2_per_source_error_isolation_amended (w : World) (srcs : Option (List Sel))
    (force : Bool) (led' : Ledger) :
    (syncAll w srcs force led').raised = false ∧
    (∀ st : RunSt, (step_roon_albums w force st).2 = none) ∧
    (∀ st : RunSt, (step_roon_tags w force st).2 = none) ∧
    (∀ st : RunSt, (step_discogs_collection w force st).2 = none) ∧
    (∀ st : RunSt, (step_discogs_wantlist w force st).2 = none) ∧
    (∀ st : RunSt, (step_track_index w force st).2 = none) ∧
    (∀ (st : RunSt) (e : String), w.apiBody Src.roon_albums = Except.error e →
      should_skip_sync force ((st.led Src.roon_albums).last_sync) w.now = false →
      ((step_roon_albums w force st).1.led Src.roon_albums).sync_status =
        "failed: " ++ truncate50 e) ∧
    (∀ (st : RunSt) (e : String), w.apiBody Src.roon_tags = Except.error e →
      ((step_roon_tags w force st).1.led Src.roon_tags).sync_status =
        "failed: " ++ truncate50 e) ∧
    (∀ (st : RunSt) (e : String), w.apiBody Src.discogs_collection = Except.error e →
      should_skip_sync force ((st.led Src.discogs_collection).last_sync) w.now = false →
      ((step_discogs_collection w force st).1.led Src.discogs_collection).sync_status =
        "failed: " ++ truncate50 e) ∧
    (∀ (st : RunSt) (e : String), w.apiBody Src.discogs_wantlist = Except.error e →
      should_skip_sync force ((st.led Src.discogs_wantlist).last_sync) w.now = false →
      ((step_discogs_wantlist w force st).1.led Src.discogs_wantlist).sync_status =
        "failed: " ++ truncate50 e) ∧
    (∀ (st : RunSt) (e : String), w.apiBody Src.track_index = Except.error e →
      ((step_track_index w force st).1.led Src.track_index).sync_status =
        "failed: " ++ truncate50 e) ∧
    (∀ (s : Src) (st : RunSt) (e : String), w.fileBody s = Except.error e →
      (step_file s w force st).2 = none ∨
      ((step_file s w force st).2 = some e ∧
        (step_file s w force st).1.led s = st.led s)) ∧
    ((w.fileBody Src.roon_tracks).isOk = true →
      (w.fileBody Src.roon_play_history).isOk = true →
      (syncAll w srcs force led').st.executed = requestedSteps srcs) := by
  refine ⟨rfl, step_roon_albums_snd w force, step_roon_tags_snd w force,
    step_discogs_collection_snd w force, step_discogs_wantlist_snd w force,
    step_track_index_snd w force, ?_, ?_, ?_, ?_, ?_, ?_, ?_⟩
  · intro st e hbody hskip
    simp only [step_roon_albums]
    rw [if_neg (by simp [hskip]), hbody]
    simp [update_sync_status]
  · intro st e hbody
    simp only [step_roon_tags]
    rw [hbody]
    simp [update_sync_status]
  · intro st e hbody hskip
    simp only [step_discogs_collection]
    rw [if_neg (by simp [hskip]), hbody]
    simp [update_sync_status]
  · intro st e hbody hskip
    simp only [step_discogs_wantlist]
    rw [if_neg (by simp [hskip]), hbody]
    simp [update_sync_status]
  · intro st e hbody
    simp only [step_track_index]
    rw [hbody]
    simp [update_sync_status]
  · intro s st e hbody
    simp only [step_file]
    cases hfp : (st.led s).file_path with
    | none => left; rfl
    | some p =>
      by_cases hex : w.fileExists s = false
      · left; rw [if_pos hex]
      · rw [if_neg hex]
        by_cases hskip : (!force &&
            (match w.mtime s, (st.led s).last_sync with
             | some m, some t => decide (m ≤ t)
             | _, _ => false)) = true
        · left; rw [if_pos hskip]
        · rw [if_neg hskip, hbody]
          right
          exact ⟨rfl, rfl⟩
  · intro h1 h2
    have t1 := seqStep_spec ({ led := led', executed := [], trace := [] }, none)
      (srcSel srcs Sel.roon_albums) (step_roon_albums w force) Src.roon_albums
      (step_roon_albums_snd w force) (step_roon_albums_exec w force) rfl
    have t2 := seqStep_spec _
      (srcSel srcs Sel.roon_albums || srcSel srcs Sel.roon_tags)
      (step_roon_tags w force) Src.roon_tags
      (step_roon_tags_snd w force) (step_roon_tags_exec w force) t1.1
    have t3 := seqStep_spec _ (srcSel srcs Sel.discogs_collection)
      (step_discogs_collection w force) Src.discogs_collection
      (step_discogs_collection_snd w force) (step_discogs_collection_exec w force) t2.1
    have t4 := seqStep_spec _ (srcSel srcs Sel.discogs_wantlist)
      (step_discogs_wantlist w force) Src.discogs_wantlist
      (step_discogs_wantlist_snd w force) (step_discogs_wantlist_exec w force) t3.1
    have t5 := seqStep_spec _ (srcSel srcs Sel.roon_tracks)
      (step_file Src.roon_tracks w force) Src.roon_tracks
      (step_file_snd_of_ok Src.roon_tracks w force h1)
      (step_file_exec Src.roon_tracks w force) t4.1
    have t6 := seqStep_spec _ (srcSel srcs Sel.roon_play_history)
      (step_file Src.roon_play_history w force) Src.roon_play_history
      (step_file_snd_of_ok Src.roon_play_history w force h2)
      (step_file_exec Src.roon_play_history w force) t5.1
    have t7 := seqStep_spec _ (srcSel srcs Sel.tracks)
      (step_track_index w force) Src.track_index
      (step_track_index_snd w force) (step_track_index_exec w force) t6.1
    simp only [syncAll]
    rw [t7.2, t6.2, t5.2, t4.2, t3.2, t2.2, t1.2]
    simp [requestedSteps, List.append_assoc]

/-- Witness for the amended C2 theorem: a concrete run in which the
albums body raises; the message is recorded truncated and every
requested source still executes. -/
theorem c2_per_source_error_isolation_amended_witness :
    ((step_roon_albums wErr false st0).1.led Src.roon_albums).sync_status =
      "failed: connection reset by peer" ∧
    (syncAll wErr none false led0).st.executed = requestedSteps none := by
  constructor
  · have h := (c2_per_source_error_isolation_amended wErr none false led0).2.2.2.2.2.2.1
      st0 "connection reset by peer" rfl rfl
    exact h.trans (by decide)
  · exact (c2_per_source_error_isolation_amended wErr none false
      led0).2.2.2.2.2.2.2.2.2.2.2.2 rfl rfl

/-- C6 counterexample: with the `roon_tags` ledger row synced at the
current instant - so the time-gated skip decision says "skip" - the
tags routine still contacts the remote service: it never consults the
skip decision. -/
theorem c6_tags_sync_ignores_skip_decision :
    should_skip_sync false ((stTags.led Src.roon_tags).last_sync) wOk.now = true ∧
    Ev.fetch Src.roon_tags ∈ (step_roon_tags wOk false stTags).1.trace := by
  exact ⟨by decide, by decide⟩

/-- C6 (amended): the three time-gated API sources (roon_albums,
discogs_collection, discogs_wantlist) consult the ledger skip decision
before fetching and, when it says skip, perform no remote fetch and no
database or ledger write; an unforced file source whose file is not
newer than its recorded sync likewise fetches and writes nothing; but
the roon_tags physical-duplicate sync never consults the skip decision
and contacts the remote service on every run. -/
theorem c6_skip_gates_fetch_amended (w : World) (force : Bool) (st : RunSt) :
    (should_skip_sync force ((st.led Src.roon_albums).last_sync) w.now = true →
      (step_roon_albums w force st).1.trace = st.trace ∧
      (step_roon_albums w force st).1.led = st.led) ∧
    (should_skip_sync force ((st.led Src.discogs_collection).last_sync) w.now = true →
      (step_discogs_collection w force st).1.trace = st.trace ∧
      (step_discogs_collection w force st).1.led = st.led) ∧
    (should_skip_sync force ((st.led Src.discogs_wantlist).last_sync) w.now = true →
      (step_discogs_wantlist w force st).1.trace = st.trace ∧
      (step_discogs_wantlist w force st).1.led = st.led) ∧
    (∀ (s : Src) (p : String) (m t : Int),
      (st.led s).file_path = some p → w.mtime s = some m →
      (st.led s).last_sync = some t → m ≤ t →
      (step_file s w false st).1.trace = st.trace ∧
      (step_file s w false st).1.led = st.led) ∧
    Ev.fetch Src.roon_tags ∈ (step_roon_tags w force st).1.trace := by
  refine ⟨?_, ?_, ?_, ?_, ?_⟩
  · intro h
    simp only [step_roon_albums]
    rw [if_pos h]
    exact ⟨rfl, rfl⟩
  · intro h
    simp only [step_discogs_collection]
    rw [if_pos h]
    exact ⟨rfl, rfl⟩
  · intro h
    simp only [step_discogs_wantlist]
    rw [if_pos h]
    exact ⟨rfl, rfl⟩
  · intro s p m t hp hm ht hle
    simp only [step_file]
    rw [hp]
    by_cases hex : w.fileExists s = false
    · rw [if_pos hex]
      exact ⟨rfl, rfl⟩
    · rw [if_neg hex]
      have hskip : (!false &&
          (match w.mtime s, (st.led s).last_sync with
           | some m', some t' => decide (m' ≤ t')
           | _, _ => false)) = true := by
        rw [hm, ht]
        simpa using hle
      rw [if_pos hskip]
      exact ⟨rfl, rfl⟩
  · simp only [step_roon_tags]
    cases w.apiBody Src.roon_tags <;> simp

/-- Witness for the amended C6 theorem: a run state in which every skip
decision says "skip"; the gated sources stay idle while the tags routine
still fetches. -/
theorem c6_skip_gates_fetch_amended_witness :
    (step_roon_albums wSkip false stAll).1.trace = stAll.trace ∧
    (step_file Src.roon_tracks wSkip false stAll).1.led = stAll.led ∧
    Ev.fetch Src.roon_tags ∈ (step_roon_tags wSkip false stAll).1.trace := by
  refine ⟨((c6_skip_gates_fetch_amended wSkip false stAll).1 (by decide)).1,
    ((c6_skip_gates_fetch_amended wSkip false stAll).2.2.2.1 Src.roon_tracks
      "export.csv" 50 1000 rfl rfl rfl (by decide)).2,
    (c6_skip_gates_fetch_amended wSkip false stAll).2.2.2.2⟩

/-- C10: when a time-gated API source's body raises, the failure handler
still overwrites the ledger row with `last_sync = now`, `records_count =
0` and a failed status, so any unforced run within the next 7 days
skips the source instead of retrying it sooner. -/
theorem c10_failed_sync_still_gates (w : World) (force : Bool) (st : RunSt)
    (e : String) (now2 : Int)
    (hbody : w.apiBody Src.roon_albums = Except.error e)
    (hskip : should_skip_sync force ((st.led Src.roon_albums).last_sync) w.now = false)
    (h1 : w.now ≤ now2)
    (h2 : now2 - w.now < SKIP_DAYS * 86400) :
    ((step_roon_albums w force st).1.led Src.roon_albums).last_sync = some w.now ∧
    ((step_roon_albums w force st).1.led Src.roon_albums).records_count = 0 ∧
    ((step_roon_albums w force st).1.led Src.roon_albums).sync_status =
      "failed: " ++ truncate50 e ∧
    should_skip_sync false
      (((step_roon_albums w force st).1.led Src.roon_albums).last_sync) now2 = true := by
  have hled : (step_roon_albums w force st).1.led Src.roon_albums =
      { last_sync := some w.now, file_path := (st.led Src.roon_albums).file_path,
        records_count := 0, sync_status := "failed: " ++ truncate50 e,
        updated_at := some w.now } := by
    simp only [step_roon_albums]
    rw [if_neg (by simp [hskip]), hbody]
    simp [update_sync_status]
  rw [hled]
  refine ⟨rfl, rfl, rfl, ?_⟩
  have hred : should_skip_sync false (some w.now) now2 =
      if (now2 - w.now) / 86400 < (7 : Int) then true else false := rfl
  simp only [SKIP_DAYS] at h2
  rw [hred, if_pos (by omega)]

/-- Witness for C10: a failed albums sync at time 1000 gates an unforced
run at time 1500. -/
theorem c10_failed_sync_still_gates_witness :
    ((step_roon_albums wErr false st0).1.led Src.roon_albums).last_sync = some 1000 ∧
    should_skip_sync false
      (((step_roon_albums wErr false st0).1.led Src.roon_albums).last_sync) 1500 = true := by
  have h := c10_failed_sync_still_gates wErr false st0 "connection reset by peer" 1500
    rfl rfl (by decide) (by decide)
  exact ⟨h.1, h.2.2.2⟩
